import Mathlib

/-!
Verification of the Radar-Client core against its specification.

The definitions below are a shallow embedding of the JavaScript source:
* geometry (point-in-polygon test) and the zone-occupancy engine from
  `src/screens/MainScreen.js`,
* the WebSocket message dispatcher, zone-deletion protocol, reconnect
  backoff, force-reconnect and pending-response timer bookkeeping from
  `src/screens/MainScreen.js`,
* local zone creation from `src/components/RadarVisualization.js`.

Numbers are embedded as rationals; timers are embedded as explicit
state fields (an `Option` deadline / armed delay); the stateful React
hooks become explicit state passing.
-/

namespace Radar

/-- A 2-D point on the radar plane (`{x, y}` in the source). -/
structure Point where
  x : ℚ
  y : ℚ
deriving DecidableEq, Repr

/-- A tracked target (`{id, x, y}` in the source). -/
structure Target where
  id : String
  x : ℚ
  y : ℚ
deriving DecidableEq, Repr

/-- A zone (`{id, name, points}` in the source). -/
structure Zone where
  id : String
  name : String
  points : List Point
deriving DecidableEq, Repr

/-! ## Geometry: `isTargetInZone` (MainScreen.js lines 223-235) -/

/-- The toggle condition of one iteration of the `isTargetInZone` loop:
`((yi > target.y) !== (yj > target.y)) &&
 (target.x < (xj - xi) * (target.y - yi) / (yj - yi) + xi)`. -/
def edgeCrosses (t : Target) (pI pJ : Point) : Bool :=
  (decide (pI.y > t.y) != decide (pJ.y > t.y)) &&
  decide (t.x < (pJ.x - pI.x) * (t.y - pI.y) / (pJ.y - pI.y) + pI.x)

/-- `isTargetInZone` from the source: the index loop
`for (let i = 0, j = zone.points.length - 1; i < zone.points.length; j = i++)`
with the parity toggle on `edgeCrosses`. -/
def isTargetInZone (t : Target) (z : Zone) : Bool :=
  (List.range z.points.length).foldl
    (fun inside i =>
      let j := if i = 0 then z.points.length - 1 else i - 1
      if edgeCrosses t (z.points.getD i ⟨0, 0⟩) (z.points.getD j ⟨0, 0⟩) then
        !inside
      else inside)
    false

/-! ## Spec-side formulation of the ray-crossing rule (spec §4.1) -/

/-- The polygon's edge list as described by the spec: consecutive vertex
pairs with wrap-around, the last vertex connecting back to the first
(vertex `k` is joined to vertex `(k+1) mod n`). -/
def specEdges (pts : List Point) : List (Point × Point) :=
  (List.range pts.length).map fun k =>
    (pts.getD k ⟨0, 0⟩, pts.getD ((k + 1) % pts.length) ⟨0, 0⟩)

/-- The spec's crossing rule for a single edge: exactly one endpoint is
strictly above the point's `y`, and the edge's x-intersection with the
horizontal line through the point is strictly greater than the point's
`x`. -/
def specCrossing (t : Target) (e : Point × Point) : Bool :=
  (decide (e.1.y > t.y) != decide (e.2.y > t.y)) &&
  decide (t.x < e.1.x + (e.2.x - e.1.x) * (t.y - e.1.y) / (e.2.y - e.1.y))

/-- The spec's point-in-polygon contract: parity of the number of
crossing edges. -/
def specPointInPolygon (t : Target) (pts : List Point) : Bool :=
  decide ((specEdges pts).countP (specCrossing t) % 2 = 1)

/-- The unit square zone used by the spec's scenario. -/
def unitSquareZone : Zone :=
  { id := "zone_sq",
    name := "square",
    points := [⟨0, 0⟩, ⟨1, 0⟩, ⟨1, 1⟩, ⟨0, 1⟩] }

/-! ## Parity characterisation of the crossing loop -/

/-- A toggle-fold computes the parity of the number of elements
satisfying the toggle predicate. -/
theorem foldl_toggle_parity (p : α → Bool) (l : List α) (b : Bool) :
    l.foldl (fun acc e => if p e then !acc else acc) b
      = (b != decide (l.countP p % 2 = 1)) := by
  induction l generalizing b with
  | nil => simp
  | cons e l ih =>
    rw [List.foldl_cons, ih, List.countP_cons]
    by_cases hp : p e
    · have hmod : (l.countP p + 1) % 2 = 1 ↔ ¬ (l.countP p % 2 = 1) := by omega
      simp [hp, hmod]
      cases b <;> cases hd : decide (l.countP p % 2 = 1) <;> simp_all
    · simp [hp]

/-- The edge list actually traversed by the source loop: index `i` is
paired with index `j`, where `j` is `i - 1`, wrapping to the last index
at `i = 0`. -/
def codeEdges (pts : List Point) : List (Point × Point) :=
  (List.range pts.length).map fun i =>
    (pts.getD i ⟨0, 0⟩, pts.getD (if i = 0 then pts.length - 1 else i - 1) ⟨0, 0⟩)

theorem isTargetInZone_eq_foldl_codeEdges (t : Target) (z : Zone) :
    isTargetInZone t z
      = (codeEdges z.points).foldl
          (fun acc e => if edgeCrosses t e.1 e.2 then !acc else acc) false := by
  rw [isTargetInZone, codeEdges, List.foldl_map]

/-- `isTargetInZone` is the parity of the number of crossing edges of
the traversed edge list. -/
theorem isTargetInZone_parity (t : Target) (z : Zone) :
    isTargetInZone t z
      = decide ((codeEdges z.points).countP (fun e => edgeCrosses t e.1 e.2) % 2 = 1) := by
  rw [isTargetInZone_eq_foldl_codeEdges, foldl_toggle_parity, Bool.false_bne]

/-- The crossing test is symmetric in the two edge endpoints: in exact
arithmetic the x-intersection of the edge with the horizontal line does
not depend on the traversal direction of the edge. -/
theorem edgeCrosses_symm (t : Target) (a b : Point) :
    edgeCrosses t a b = edgeCrosses t b a := by
  unfold edgeCrosses
  by_cases ha : a.y > t.y <;> by_cases hb : b.y > t.y
  · simp [ha, hb]
  · have hy : a.y - b.y ≠ 0 := by
      have : b.y ≤ t.y := le_of_not_lt hb
      intro h
      have : a.y = b.y := by linarith [sub_eq_zero.mp h]
      exact absurd ha (by simp [this]; linarith)
    have hy' : b.y - a.y ≠ 0 := fun h => hy (by linarith [sub_eq_zero.mp h])
    have hx : (b.x - a.x) * (t.y - a.y) / (b.y - a.y) + a.x
            = (a.x - b.x) * (t.y - b.y) / (a.y - b.y) + b.x := by
      field_simp
      ring
    simp [ha, hb, hx]
  · have hy : a.y - b.y ≠ 0 := by
      have : a.y ≤ t.y := le_of_not_lt ha
      intro h
      have : a.y = b.y := by linarith [sub_eq_zero.mp h]
      exact absurd hb (by simp [← this]; linarith)
    have hy' : b.y - a.y ≠ 0 := fun h => hy (by linarith [sub_eq_zero.mp h])
    have hx : (b.x - a.x) * (t.y - a.y) / (b.y - a.y) + a.x
            = (a.x - b.x) * (t.y - b.y) / (a.y - b.y) + b.x := by
      field_simp
      ring
    simp [ha, hb, hx]
  · simp [ha, hb]

/-- One loop iteration's toggle equals the spec's crossing rule on the
same directed edge. -/
theorem edgeCrosses_eq_specCrossing (t : Target) (a b : Point) :
    edgeCrosses t a b = specCrossing t (a, b) := by
  unfold edgeCrosses specCrossing
  have h : (b.x - a.x) * (t.y - a.y) / (b.y - a.y) + a.x
         = a.x + (b.x - a.x) * (t.y - a.y) / (b.y - a.y) := add_comm _ _
  rw [h]

/-- The toggle tested at loop index `i`: the edge from vertex `i` back
to vertex `i - 1` (wrapping to the last vertex at `i = 0`). -/
def codeCrossAt (t : Target) (pts : List Point) (i : ℕ) : Bool :=
  edgeCrosses t (pts.getD i ⟨0, 0⟩)
    (pts.getD (if i = 0 then pts.length - 1 else i - 1) ⟨0, 0⟩)

/-- The spec's crossing rule at edge index `k` (vertex `k` joined to
vertex `(k+1) mod n`). -/
def specCrossAt (t : Target) (pts : List Point) (k : ℕ) : Bool :=
  specCrossing t (pts.getD k ⟨0, 0⟩, pts.getD ((k + 1) % pts.length) ⟨0, 0⟩)

theorem countP_codeEdges (t : Target) (pts : List Point) :
    (codeEdges pts).countP (fun e => edgeCrosses t e.1 e.2)
      = (List.range pts.length).countP (codeCrossAt t pts) := by
  rw [codeEdges, List.countP_map]
  rfl

theorem countP_specEdges (t : Target) (pts : List Point) :
    (specEdges pts).countP (specCrossing t)
      = (List.range pts.length).countP (specCrossAt t pts) := by
  rw [specEdges, List.countP_map]
  rfl

theorem countP_range_eq_sum (n : ℕ) (p : ℕ → Bool) :
    (List.range n).countP p = ∑ i ∈ Finset.range n, (if p i then 1 else 0) := by
  induction n with
  | zero => simp
  | succ n ih =>
    rw [List.range_succ, List.countP_append, Finset.sum_range_succ, ih]
    simp [List.countP_cons]

/-- Each toggle of the source loop is the spec's crossing rule applied
at the preceding edge index (`(i + n - 1) mod n`). -/
theorem codeCrossAt_eq_specCrossAt (t : Target) (pts : List Point) (i : ℕ)
    (hi : i < pts.length) :
    codeCrossAt t pts i = specCrossAt t pts ((i + (pts.length - 1)) % pts.length) := by
  have hnpos : 0 < pts.length := Nat.lt_of_le_of_lt (Nat.zero_le i) hi
  have hk : (i + (pts.length - 1)) % pts.length
          = if i = 0 then pts.length - 1 else i - 1 := by
    rcases Nat.eq_zero_or_pos i with h0 | h0
    · subst h0
      simp [Nat.mod_eq_of_lt (Nat.sub_lt hnpos Nat.one_pos)]
    · have hne : i ≠ 0 := Nat.pos_iff_ne_zero.mp h0
      have he : i + (pts.length - 1) = (i - 1) + pts.length := by omega
      rw [he, Nat.add_mod_right, Nat.mod_eq_of_lt (by omega)]
      simp [hne]
  have hk1 : ((if i = 0 then pts.length - 1 else i - 1) + 1) % pts.length = i := by
    rcases Nat.eq_zero_or_pos i with h0 | h0
    · subst h0
      simp [Nat.sub_add_cancel hnpos, Nat.mod_self]
    · have hne : i ≠ 0 := Nat.pos_iff_ne_zero.mp h0
      simp only [if_neg hne]
      rw [Nat.sub_add_cancel h0, Nat.mod_eq_of_lt hi]
  rw [specCrossAt, hk, hk1, codeCrossAt,
    edgeCrosses_symm, edgeCrosses_eq_specCrossing]

/-- The loop counts exactly as many toggles as the spec counts
crossings: the two edge enumerations are index-shifts of each other and
the crossing test is direction-independent. -/
theorem countP_code_eq_spec (t : Target) (pts : List Point) :
    (List.range pts.length).countP (codeCrossAt t pts)
      = (List.range pts.length).countP (specCrossAt t pts) := by
  rw [countP_range_eq_sum, countP_range_eq_sum]
  rcases Nat.eq_zero_or_pos pts.length with h0 | h0
  · simp [h0]
  refine Finset.sum_nbij' (fun i => (i + (pts.length - 1)) % pts.length)
    (fun j => (j + 1) % pts.length) ?_ ?_ ?_ ?_ ?_
  · intro a ha
    exact Finset.mem_range.mpr (Nat.mod_lt _ h0)
  · intro b hb
    exact Finset.mem_range.mpr (Nat.mod_lt _ h0)
  · intro a ha
    have ha' : a < pts.length := Finset.mem_range.mp ha
    show ((a + (pts.length - 1)) % pts.length + 1) % pts.length = a
    rw [Nat.mod_add_mod]
    have : a + (pts.length - 1) + 1 = a + pts.length := by omega
    rw [this, Nat.add_mod_right, Nat.mod_eq_of_lt ha']
  · intro b hb
    have hb' : b < pts.length := Finset.mem_range.mp hb
    show ((b + 1) % pts.length + (pts.length - 1)) % pts.length = b
    rw [Nat.mod_add_mod]
    have : b + 1 + (pts.length - 1) = b + pts.length := by omega
    rw [this, Nat.add_mod_right, Nat.mod_eq_of_lt hb']
  · intro a ha
    have ha' : a < pts.length := Finset.mem_range.mp ha
    rw [codeCrossAt_eq_specCrossAt t pts a ha']

/-- The source's containment test agrees with the spec's ray-crossing
contract on every point and polygon. -/
theorem isTargetInZone_eq_spec (t : Target) (z : Zone) :
    isTargetInZone t z = specPointInPolygon t z.points := by
  rw [isTargetInZone_parity, specPointInPolygon, countP_codeEdges,
    countP_specEdges, countP_code_eq_spec]

/-! ## Occupancy engine (MainScreen.js lines 238-298)

The `useEffect` that tracks active zones and creates log entries.  The
three pieces of React state it touches (`activeZones`, `zoneLogs`) and
the ref `prevActiveZonesRef` become the fields of `OccState`; a single
run of the effect becomes `occupancyUpdate`.  `requestAnimationFrame`
only defers the batched write; the batched write itself is modelled as
part of the same atomic step. -/

/-- `'occupied' | 'unoccupied'` log entry discriminator. -/
inductive LogType where
  | occupied
  | unoccupied
deriving DecidableEq, Repr

/-- A zone log entry (timestamps are epoch instants, abstracting the
ISO-8601 string). -/
structure LogEntry where
  timestamp : ℕ
  type : LogType
  targetCount : ℕ
  targets : List (String × ℚ × ℚ)
deriving DecidableEq, Repr

/-- The log entry synthesized on a flip:
`{ timestamp, type: isActive ? 'occupied' : 'unoccupied',
   targetCount: targetsInZone.length, targets: targetsInZone.map(...) }`. -/
def mkLogEntry (ts : ℕ) (isActive : Bool) (tin : List Target) : LogEntry :=
  { timestamp := ts,
    type := if isActive then .occupied else .unoccupied,
    targetCount := tin.length,
    targets := tin.map fun t => (t.id, t.x, t.y) }

/-- The accumulator threaded through `zones.forEach`:
`currentActiveZones`, `newLogs` (flattened: one `(zoneId, entry)` pair
per synthesized entry, in emission order) and `hasChanges`. -/
structure ScanAcc where
  current : Finset String
  newLogs : List (String × LogEntry)
  hasChanges : Bool
deriving DecidableEq

/-- The body of `zones.forEach(zone => ...)`. -/
def zoneScanStep (targets : List Target) (prev : Finset String) (ts : ℕ)
    (acc : ScanAcc) (z : Zone) : ScanAcc :=
  let tin := targets.filter fun t => isTargetInZone t z
  let isActive := decide (0 < tin.length)
  let wasActive := decide (z.id ∈ prev)
  let cur := if isActive then insert z.id acc.current else acc.current
  if isActive != wasActive then
    { current := cur,
      newLogs := acc.newLogs ++ [(z.id, mkLogEntry ts isActive tin)],
      hasChanges := true }
  else
    { acc with current := cur }

/-- The whole `zones.forEach` pass over the zone list. -/
def occupancyScan (zones : List Zone) (targets : List Target)
    (prev : Finset String) (ts : ℕ) : ScanAcc :=
  zones.foldl (zoneScanStep targets prev ts) ⟨∅, [], false⟩

/-- The targets currently inside a zone
(`targets.filter(target => isTargetInZone(target, zone))`). -/
def zoneTargets (targets : List Target) (z : Zone) : List Target :=
  targets.filter fun t => isTargetInZone t z

/-- `isActive` for a zone: at least one current target inside. -/
def zoneOccupied (targets : List Target) (z : Zone) : Bool :=
  decide (0 < (zoneTargets targets z).length)

/-- Whether a zone's occupancy boolean flips relative to the previous
snapshot. -/
def zoneFlips (targets : List Target) (prev : Finset String) (z : Zone) : Bool :=
  zoneOccupied targets z != decide (z.id ∈ prev)

/-- The entries a single engine pass synthesizes, keyed by zone id. -/
def occupancyNewEntries (zones : List Zone) (targets : List Target)
    (prev : Finset String) (ts : ℕ) : List (String × LogEntry) :=
  zones.filterMap fun z =>
    if zoneFlips targets prev z then
      some (z.id, mkLogEntry ts (zoneOccupied targets z) (zoneTargets targets z))
    else none

/-- The ids of the zones currently containing at least one target: the
exact derived active set for a zones/targets snapshot. -/
def activeIds (zones : List Zone) (targets : List Target) : Finset String :=
  ((zones.filter (zoneOccupied targets)).map Zone.id).toFinset

/-- The JS-object zone-log map, as an association list (key order =
insertion order, exactly one pair per present key). -/
def logsGet (m : List (String × List LogEntry)) (k : String) : List LogEntry :=
  (((m.find? fun kv => decide (kv.1 = k)).map fun kv => kv.2).getD [])

/-- `updatedLogs[zoneId] = (updatedLogs[zoneId] || []) ++ [entry]` on a
JS object: push onto an existing key, or create the key. -/
def appendLog (m : List (String × List LogEntry)) (k : String) (e : LogEntry) :
    List (String × List LogEntry) :=
  if m.any fun kv => decide (kv.1 = k) then
    m.map fun kv => if kv.1 = k then (kv.1, kv.2 ++ [e]) else kv
  else m ++ [(k, [e])]

/-- The batched `setZoneLogs` update: push every newly synthesized
entry onto its zone's array. -/
def mergeLogs (m : List (String × List LogEntry))
    (entries : List (String × LogEntry)) : List (String × List LogEntry) :=
  entries.foldl (fun m ke => appendLog m ke.1 ke.2) m

/-- The occupancy engine's state: the `activeZones` React state, the
`prevActiveZonesRef` ref, and the `zoneLogs` React state. -/
structure OccState where
  activeZones : Finset String
  prevActive : Finset String
  zoneLogs : List (String × List LogEntry)
deriving DecidableEq

/-- One run of the active-zone tracking effect:
short-circuit when either list is empty; otherwise scan all zones,
batch-apply the log append and active-set replacement only when some
zone flipped, and always store the freshly computed snapshot in the
ref. -/
def occupancyUpdate (zones : List Zone) (targets : List Target) (ts : ℕ)
    (s : OccState) : OccState :=
  if zones.length = 0 ∨ targets.length = 0 then s
  else
    let scan := occupancyScan zones targets s.prevActive ts
    if scan.hasChanges then
      { activeZones := scan.current,
        prevActive := scan.current,
        zoneLogs := mergeLogs s.zoneLogs scan.newLogs }
    else
      { s with prevActive := scan.current }

/-! ### Characterisation of the scan pass -/

theorem zoneScanStep_current (targets : List Target) (prev : Finset String)
    (ts : ℕ) (acc : ScanAcc) (z : Zone) :
    (zoneScanStep targets prev ts acc z).current
      = if zoneOccupied targets z then insert z.id acc.current else acc.current := by
  simp only [zoneScanStep, zoneOccupied, zoneTargets]
  split <;> rfl

theorem zoneScanStep_newLogs (targets : List Target) (prev : Finset String)
    (ts : ℕ) (acc : ScanAcc) (z : Zone) :
    (zoneScanStep targets prev ts acc z).newLogs
      = if zoneFlips targets prev z then
          acc.newLogs ++ [(z.id, mkLogEntry ts (zoneOccupied targets z) (zoneTargets targets z))]
        else acc.newLogs := by
  simp only [zoneScanStep, zoneFlips, zoneOccupied, zoneTargets]
  split <;> rfl

theorem zoneScanStep_hasChanges (targets : List Target) (prev : Finset String)
    (ts : ℕ) (acc : ScanAcc) (z : Zone) :
    (zoneScanStep targets prev ts acc z).hasChanges
      = if zoneFlips targets prev z then true else acc.hasChanges := by
  simp only [zoneScanStep, zoneFlips, zoneOccupied, zoneTargets]
  split <;> rfl

theorem activeIds_cons (z : Zone) (zs : List Zone) (targets : List Target) :
    activeIds (z :: zs) targets
      = if zoneOccupied targets z then insert z.id (activeIds zs targets)
        else activeIds zs targets := by
  simp only [activeIds, List.filter_cons]
  split <;> simp

theorem occupancyNewEntries_cons (z : Zone) (zs : List Zone)
    (targets : List Target) (prev : Finset String) (ts : ℕ) :
    occupancyNewEntries (z :: zs) targets prev ts
      = (if zoneFlips targets prev z then
          [(z.id, mkLogEntry ts (zoneOccupied targets z) (zoneTargets targets z))]
         else [])
        ++ occupancyNewEntries zs targets prev ts := by
  simp only [occupancyNewEntries, List.filterMap_cons]
  split <;> simp_all

theorem scan_foldl_current (targets : List Target) (prev : Finset String)
    (ts : ℕ) (zones : List Zone) :
    ∀ acc : ScanAcc,
      (zones.foldl (zoneScanStep targets prev ts) acc).current
        = acc.current ∪ activeIds zones targets := by
  induction zones with
  | nil => intro acc; simp [activeIds]
  | cons z zs ih =>
    intro acc
    rw [List.foldl_cons, ih, zoneScanStep_current, activeIds_cons]
    by_cases hocc : zoneOccupied targets z = true
    · simp [hocc, Finset.insert_union, Finset.union_insert]
    · have hocc' : zoneOccupied targets z = false := by
        revert hocc
        cases zoneOccupied targets z <;> simp
      simp [hocc']

theorem scan_foldl_newLogs (targets : List Target) (prev : Finset String)
    (ts : ℕ) (zones : List Zone) :
    ∀ acc : ScanAcc,
      (zones.foldl (zoneScanStep targets prev ts) acc).newLogs
        = acc.newLogs ++ occupancyNewEntries zones targets prev ts := by
  induction zones with
  | nil => intro acc; simp [occupancyNewEntries]
  | cons z zs ih =>
    intro acc
    rw [List.foldl_cons, ih, zoneScanStep_newLogs, occupancyNewEntries_cons]
    split <;> simp

theorem scan_foldl_hasChanges (targets : List Target) (prev : Finset String)
    (ts : ℕ) (zones : List Zone) :
    ∀ acc : ScanAcc,
      (zones.foldl (zoneScanStep targets prev ts) acc).hasChanges
        = (acc.hasChanges || zones.any (zoneFlips targets prev)) := by
  induction zones with
  | nil => intro acc; simp
  | cons z zs ih =>
    intro acc
    rw [List.foldl_cons, ih, zoneScanStep_hasChanges, List.any_cons]
    split <;> simp_all

theorem occupancyScan_current (zones : List Zone) (targets : List Target)
    (prev : Finset String) (ts : ℕ) :
    (occupancyScan zones targets prev ts).current = activeIds zones targets := by
  rw [occupancyScan, scan_foldl_current]
  exact Finset.empty_union _

theorem occupancyScan_newLogs (zones : List Zone) (targets : List Target)
    (prev : Finset String) (ts : ℕ) :
    (occupancyScan zones targets prev ts).newLogs
      = occupancyNewEntries zones targets prev ts := by
  rw [occupancyScan, scan_foldl_newLogs]
  rfl

theorem occupancyScan_hasChanges (zones : List Zone) (targets : List Target)
    (prev : Finset String) (ts : ℕ) :
    (occupancyScan zones targets prev ts).hasChanges
      = zones.any (zoneFlips targets prev) := by
  rw [occupancyScan, scan_foldl_hasChanges]
  exact Bool.false_or _

/-! ### Log-map merge: `logsGet` through `appendLog`/`mergeLogs` -/

theorem logsGet_nil (k : String) : logsGet [] k = [] := rfl

theorem logsGet_cons (kv : String × List LogEntry)
    (m : List (String × List LogEntry)) (k : String) :
    logsGet (kv :: m) k = if kv.1 = k then kv.2 else logsGet m k := by
  simp only [logsGet, List.find?_cons]
  by_cases h : kv.1 = k <;> simp [h]

theorem logsGet_map_other (m : List (String × List LogEntry)) (k k' : String)
    (e : LogEntry) (hne : k ≠ k') :
    logsGet (m.map fun kv => if kv.1 = k then (kv.1, kv.2 ++ [e]) else kv) k'
      = logsGet m k' := by
  induction m with
  | nil => rfl
  | cons kw m ihm =>
    rw [List.map_cons, logsGet_cons, logsGet_cons]
    by_cases hkw : kw.1 = k
    · have h2 : kw.1 ≠ k' := by rw [hkw]; exact hne
      simp [hkw, h2, hne, ihm]
    · by_cases hk' : kw.1 = k'
      · have h3 : k' ≠ k := by
          intro h
          exact hkw (by rw [hk', h])
        simp [hkw, hk', h3, ihm]
      · simp [hkw, hk', ihm]

theorem logsGet_map_self (m : List (String × List LogEntry)) (k : String)
    (e : LogEntry) (hany : (m.any fun p => decide (p.1 = k)) = true) :
    logsGet (m.map fun kv => if kv.1 = k then (kv.1, kv.2 ++ [e]) else kv) k
      = logsGet m k ++ [e] := by
  induction m with
  | nil => simp at hany
  | cons kw m ihm =>
    rw [List.map_cons, logsGet_cons, logsGet_cons]
    by_cases hkw : kw.1 = k
    · simp [hkw]
    · have hany' : (m.any fun p => decide (p.1 = k)) = true := by
        simpa [hkw] using hany
      simp [hkw, ihm hany']

theorem logsGet_eq_nil_of_not_any (m : List (String × List LogEntry)) (k : String)
    (hany : (m.any fun p => decide (p.1 = k)) = false) :
    logsGet m k = [] := by
  induction m with
  | nil => rfl
  | cons kw m ihm =>
    rw [logsGet_cons]
    have hkw : kw.1 ≠ k := by
      intro h
      simp [h] at hany
    have h2 : (m.any fun p => decide (p.1 = k)) = false := by
      simpa [hkw] using hany
    simp [hkw, ihm h2]

theorem logsGet_append_single (m : List (String × List LogEntry))
    (k : String) (v : List LogEntry) (k' : String) :
    logsGet (m ++ [(k, v)]) k'
      = if (m.any fun p => decide (p.1 = k')) = true then logsGet m k'
        else if k = k' then v else [] := by
  induction m with
  | nil =>
    rw [List.nil_append, logsGet_cons]
    simp [logsGet_nil]
  | cons kw m ihm =>
    rw [List.cons_append, logsGet_cons, logsGet_cons]
    by_cases hkw : kw.1 = k'
    · simp [hkw]
    · have hd : (decide (kw.1 = k')) = false := by simp [hkw]
      rw [if_neg hkw, ihm]
      have horr : (decide (kw.1 = k') || m.any fun p => decide (p.1 = k'))
                = (m.any fun p => decide (p.1 = k')) := by
        rw [hd, Bool.false_or]
      rw [List.any_cons, horr, if_neg hkw]

theorem logsGet_appendLog (m : List (String × List LogEntry)) (k : String)
    (e : LogEntry) (k' : String) :
    logsGet (appendLog m k e) k'
      = if k = k' then logsGet m k' ++ [e] else logsGet m k' := by
  by_cases hany : (m.any fun p => decide (p.1 = k)) = true
  · simp only [appendLog, hany, if_true]
    by_cases h : k = k'
    · subst h
      rw [logsGet_map_self m k e hany]
      simp
    · rw [logsGet_map_other m k k' e h]
      simp [h]
  · have hany' : (m.any fun p => decide (p.1 = k)) = false := by
      revert hany
      cases m.any fun p => decide (p.1 = k) <;> simp
    simp only [appendLog, hany', Bool.false_eq_true, if_false]
    rw [logsGet_append_single]
    by_cases h : k = k'
    · subst h
      rw [hany', logsGet_eq_nil_of_not_any m k hany']
      simp
    · by_cases hk' : (m.any fun p => decide (p.1 = k')) = true
      · simp [hk', h]
      · have hk'' : (m.any fun p => decide (p.1 = k')) = false := by
          revert hk'
          cases m.any fun p => decide (p.1 = k') <;> simp
        have := logsGet_eq_nil_of_not_any m k' hk''
        simp [hk'', h, this]

theorem logsGet_mergeLogs (entries : List (String × LogEntry)) :
    ∀ (m : List (String × List LogEntry)) (k : String),
      logsGet (mergeLogs m entries) k
        = logsGet m k ++ ((entries.filter fun ke => decide (ke.1 = k)).map fun ke => ke.2) := by
  induction entries with
  | nil => intro m k; simp [mergeLogs]
  | cons ke es ih =>
    intro m k
    rw [mergeLogs, List.foldl_cons]
    have : es.foldl (fun m p => appendLog m p.1 p.2) (appendLog m ke.1 ke.2)
         = mergeLogs (appendLog m ke.1 ke.2) es := rfl
    rw [this, ih, logsGet_appendLog, List.filter_cons]
    by_cases h : ke.1 = k
    · simp [h]
    · simp [h]

/-- Every synthesized entry is keyed by the id of some scanned zone. -/
theorem newEntries_keys (zones : List Zone) (targets : List Target)
    (prev : Finset String) (ts : ℕ) :
    ∀ ke ∈ occupancyNewEntries zones targets prev ts, ke.1 ∈ zones.map Zone.id := by
  intro ke hke
  rcases List.mem_filterMap.mp hke with ⟨z, hz, hf⟩
  have : ke.1 = z.id := by
    by_cases h : zoneFlips targets prev z = true
    · rw [if_pos h] at hf
      cases hf
      rfl
    · rw [if_neg h] at hf
      cases hf
  rw [this]
  exact List.mem_map.mpr ⟨z, hz, rfl⟩

/-- With distinct zone ids, the entries synthesized under a given
zone's id are exactly the one flip entry of that zone (or nothing). -/
theorem newEntries_filter (zones : List Zone) (targets : List Target)
    (prev : Finset String) (ts : ℕ) (z : Zone)
    (hmem : z ∈ zones) (hnodup : (zones.map Zone.id).Nodup) :
    (occupancyNewEntries zones targets prev ts).filter (fun ke => decide (ke.1 = z.id))
      = if zoneFlips targets prev z then
          [(z.id, mkLogEntry ts (zoneOccupied targets z) (zoneTargets targets z))]
        else [] := by
  induction zones with
  | nil => cases hmem
  | cons w zs ih =>
    rw [occupancyNewEntries_cons, List.filter_append]
    have hnodup' : (zs.map Zone.id).Nodup := by
      rw [List.map_cons, List.nodup_cons] at hnodup
      exact hnodup.2
    have hwid : w.id ∉ zs.map Zone.id := by
      rw [List.map_cons, List.nodup_cons] at hnodup
      exact hnodup.1
    rcases List.mem_cons.mp hmem with hz | hz
    · rw [hz]
      have htail : (occupancyNewEntries zs targets prev ts).filter
          (fun ke => decide (ke.1 = w.id)) = [] := by
        rw [List.filter_eq_nil_iff]
        intro ke hke
        have hk := newEntries_keys zs targets prev ts ke hke
        simp only [decide_eq_true_eq]
        intro h
        rw [h] at hk
        exact hwid hk
      rw [htail, List.append_nil]
      by_cases hf : zoneFlips targets prev w = true
      · rw [if_pos hf]
        simp
      · rw [if_neg hf]
        rfl
    · have hne : w.id ≠ z.id := by
        intro h
        exact hwid (h ▸ List.mem_map.mpr ⟨z, hz, rfl⟩)
      have hhead : ((if zoneFlips targets prev w then
          [(w.id, mkLogEntry ts (zoneOccupied targets w) (zoneTargets targets w))]
          else []) : List (String × LogEntry)).filter (fun ke => decide (ke.1 = z.id)) = [] := by
        by_cases hf : zoneFlips targets prev w = true
        · rw [if_pos hf]
          simp [hne]
        · rw [if_neg hf]
          rfl
      rw [hhead, List.nil_append]
      exact ih hz hnodup'

/-! ### Projections of one engine run -/

theorem occupancyUpdate_guard (zones : List Zone) (targets : List Target)
    (ts : ℕ) (s : OccState) (h : zones.length = 0 ∨ targets.length = 0) :
    occupancyUpdate zones targets ts s = s := by
  rw [occupancyUpdate, if_pos h]

theorem occupancyUpdate_zoneLogs (zones : List Zone) (targets : List Target)
    (ts : ℕ) (s : OccState) (h : ¬(zones.length = 0 ∨ targets.length = 0)) :
    (occupancyUpdate zones targets ts s).zoneLogs
      = if zones.any (zoneFlips targets s.prevActive) then
          mergeLogs s.zoneLogs (occupancyNewEntries zones targets s.prevActive ts)
        else s.zoneLogs := by
  rw [occupancyUpdate, if_neg h]
  simp only [occupancyScan_hasChanges]
  split
  · simp only [occupancyScan_newLogs]
  · rfl

theorem occupancyUpdate_prevActive (zones : List Zone) (targets : List Target)
    (ts : ℕ) (s : OccState) (h : ¬(zones.length = 0 ∨ targets.length = 0)) :
    (occupancyUpdate zones targets ts s).prevActive = activeIds zones targets := by
  rw [occupancyUpdate, if_neg h]
  simp only [occupancyScan_hasChanges]
  split
  · simp only [occupancyScan_current]
  · simp only [occupancyScan_current]

theorem occupancyUpdate_activeZones (zones : List Zone) (targets : List Target)
    (ts : ℕ) (s : OccState) (h : ¬(zones.length = 0 ∨ targets.length = 0)) :
    (occupancyUpdate zones targets ts s).activeZones
      = if zones.any (zoneFlips targets s.prevActive) then activeIds zones targets
        else s.activeZones := by
  rw [occupancyUpdate, if_neg h]
  simp only [occupancyScan_hasChanges]
  split
  · simp only [occupancyScan_current]
  · rfl

/-- Membership in the derived active set: exactly the ids of zones
containing at least one current target. -/
theorem mem_activeIds (zones : List Zone) (targets : List Target) (x : String) :
    x ∈ activeIds zones targets
      ↔ ∃ z ∈ zones, z.id = x ∧ ∃ t ∈ targets, isTargetInZone t z = true := by
  constructor
  · intro hx
    rcases List.mem_map.mp (List.mem_toFinset.mp hx) with ⟨z, hz, hid⟩
    rcases List.mem_filter.mp hz with ⟨hzz, hocc⟩
    refine ⟨z, hzz, hid, ?_⟩
    have : 0 < (zoneTargets targets z).length := of_decide_eq_true hocc
    rcases List.exists_mem_of_length_pos this with ⟨t, ht⟩
    rcases List.mem_filter.mp ht with ⟨htt, hin⟩
    exact ⟨t, htt, hin⟩
  · rintro ⟨z, hz, hid, t, ht, hin⟩
    refine List.mem_toFinset.mpr (List.mem_map.mpr ⟨z, ?_, hid⟩)
    refine List.mem_filter.mpr ⟨hz, ?_⟩
    have : t ∈ zoneTargets targets z := List.mem_filter.mpr ⟨ht, hin⟩
    exact decide_eq_true (List.length_pos.mpr (List.ne_nil_of_mem this))

/-! ## Claim C2 -/

/-- C2: for every point and polygon, `isTargetInZone` implements the
horizontal-ray-crossing rule over the wrap-around edge list (parity
toggled exactly when one endpoint is strictly above the point's `y`,
the other is not, and the x-intersection is strictly greater than the
point's `x`); consequently for the unit square, `(0.5, 0.5)` is inside
and `(2, 2)` is outside. -/
theorem claim_C2_ray_crossing :
    (∀ (t : Target) (z : Zone), isTargetInZone t z = specPointInPolygon t z.points)
    ∧ isTargetInZone ⟨"t1", 1/2, 1/2⟩ unitSquareZone = true
    ∧ isTargetInZone ⟨"t2", 2, 2⟩ unitSquareZone = false := by
  refine ⟨isTargetInZone_eq_spec, ?_, ?_⟩
  · with_unfolding_all decide
  · with_unfolding_all decide

/-! ## Claim C9 -/

/-- The containment test returns `false` on every polygon with fewer
than three vertices: zero points traverse no edge, one point yields the
single degenerate edge `(a, a)` which never satisfies the strict-above
test, and two points yield the same segment traversed twice, so parity
toggles an even number of times. -/
theorem isTargetInZone_degenerate (t : Target) (z : Zone)
    (h : z.points.length < 3) : isTargetInZone t z = false := by
  rw [isTargetInZone_parity]
  rcases z with ⟨zid, zname, pts⟩
  rcases pts with _ | ⟨a, _ | ⟨b, _ | ⟨c, rest⟩⟩⟩
  · rfl
  · have hc : edgeCrosses t a a = false := by
      simp [edgeCrosses]
    rw [show codeEdges [a] = [(a, a)] from rfl]
    simp [List.countP_cons, hc]
  · have h2 : edgeCrosses t b a = edgeCrosses t a b := edgeCrosses_symm t b a
    rw [show codeEdges [a, b] = [(a, b), (b, a)] from rfl]
    cases hc : edgeCrosses t a b
    · simp [List.countP_cons, hc, h2]
    · simp [List.countP_cons, hc, h2]
  · simp only [Zone.mk.injEq, List.length_cons] at h
    omega

/-- C9: for every point and every degenerate polygon with fewer than
three vertices the containment test terminates with `false`, and
consequently a malformed zone is never put into the engine's computed
active set. -/
theorem claim_C9_degenerate_polygon (t : Target) (z : Zone)
    (targets : List Target) (prev : Finset String) (ts : ℕ)
    (h : z.points.length < 3) :
    isTargetInZone t z = false
    ∧ (occupancyScan [z] targets prev ts).current = ∅ := by
  refine ⟨isTargetInZone_degenerate t z h, ?_⟩
  rw [occupancyScan_current]
  have hzt : zoneTargets targets z = [] := by
    rw [zoneTargets, List.filter_eq_nil_iff]
    intro x hx
    simp [isTargetInZone_degenerate x z h]
  have hocc : zoneOccupied targets z = false := by
    rw [zoneOccupied, hzt]
    rfl
  rw [activeIds_cons, hocc]
  simp [activeIds]

/-- C9 witness: a zone whose point list was externally emptied is not
inside-tested positively and is not reported active. -/
theorem claim_C9_witness :
    (([] : List Point).length < 3)
    ∧ (isTargetInZone ⟨"t", 0, 0⟩ ⟨"bad", "bad", []⟩ = false
       ∧ (occupancyScan [⟨"bad", "bad", []⟩] [⟨"t", 0, 0⟩] ∅ 0).current = ∅) :=
  ⟨by decide, claim_C9_degenerate_polygon ⟨"t", 0, 0⟩ ⟨"bad", "bad", []⟩
      [⟨"t", 0, 0⟩] ∅ 0 (by decide)⟩

/-! ## Claim C1 -/

/-- C1 (amended): for every engine run in which both the zone list and
the target list are non-empty, each zone's log receives exactly one new
entry when that zone's occupancy boolean differs from the previous
snapshot (typed by the new occupancy value) and no entry otherwise.
(The unamended claim fails when the target list becomes empty: the run
short-circuits and the flip is dropped — see the counterexample.) -/
theorem claim_C1_log_entry_per_flip (zones : List Zone) (targets : List Target)
    (ts : ℕ) (s : OccState) (z : Zone)
    (hzones : zones ≠ []) (htargets : targets ≠ [])
    (hnodup : (zones.map Zone.id).Nodup) (hmem : z ∈ zones) :
    logsGet (occupancyUpdate zones targets ts s).zoneLogs z.id
      = logsGet s.zoneLogs z.id
        ++ (if zoneFlips targets s.prevActive z then
              [mkLogEntry ts (zoneOccupied targets z) (zoneTargets targets z)]
            else []) := by
  have hg : ¬(zones.length = 0 ∨ targets.length = 0) := by
    rintro (hl | hl)
    · exact hzones (List.length_eq_zero.mp hl)
    · exact htargets (List.length_eq_zero.mp hl)
  rw [occupancyUpdate_zoneLogs zones targets ts s hg]
  by_cases hch : zones.any (zoneFlips targets s.prevActive) = true
  · rw [if_pos hch, logsGet_mergeLogs,
      newEntries_filter zones targets s.prevActive ts z hmem hnodup]
    by_cases hf : zoneFlips targets s.prevActive z = true
    · simp [hf]
    · simp [hf]
  · have hch' : zones.any (zoneFlips targets s.prevActive) = false := by
      revert hch
      cases zones.any (zoneFlips targets s.prevActive) <;> simp
    rw [if_neg (by simp [hch'])]
    have hf : zoneFlips targets s.prevActive z = false := by
      cases hfb : zoneFlips targets s.prevActive z
      · rfl
      · exact absurd (List.any_eq_true.mpr ⟨z, hmem, hfb⟩) (by simp [hch'])
    rw [hf]
    simp

/-- C1 witness: the first target entering the unit square produces
exactly one `occupied` entry for that zone. -/
theorem claim_C1_witness :
    (([unitSquareZone] : List Zone) ≠ []
     ∧ ([⟨"t1", 1/2, 1/2⟩] : List Target) ≠ []
     ∧ ([unitSquareZone].map Zone.id).Nodup
     ∧ unitSquareZone ∈ [unitSquareZone])
    ∧ logsGet (occupancyUpdate [unitSquareZone] [⟨"t1", 1/2, 1/2⟩] 1
          ⟨∅, ∅, []⟩).zoneLogs unitSquareZone.id
        = logsGet (⟨∅, ∅, []⟩ : OccState).zoneLogs unitSquareZone.id
          ++ (if zoneFlips [⟨"t1", 1/2, 1/2⟩] (⟨∅, ∅, []⟩ : OccState).prevActive unitSquareZone then
                [mkLogEntry 1 (zoneOccupied [⟨"t1", 1/2, 1/2⟩] unitSquareZone)
                  (zoneTargets [⟨"t1", 1/2, 1/2⟩] unitSquareZone)]
              else []) :=
  ⟨⟨by decide, by decide, by decide, by decide⟩,
    claim_C1_log_entry_per_flip [unitSquareZone] [⟨"t1", 1/2, 1/2⟩] 1
      ⟨∅, ∅, []⟩ unitSquareZone (by decide) (by decide) (by decide) (by decide)⟩

/-- A target inside the unit square. -/
def cxTargetIn : Target := ⟨"t1", 1/2, 1/2⟩

/-- Fresh engine state. -/
def cxState0 : OccState := ⟨∅, ∅, []⟩

/-- State after the square zone becomes occupied. -/
def cxState1 : OccState := occupancyUpdate [unitSquareZone] [cxTargetIn] 1 cxState0

/-- State after every target disappears (empty target list). -/
def cxState2 : OccState := occupancyUpdate [unitSquareZone] [] 2 cxState1

/-- C1 counterexample: the square is occupied after step 1 (its id is in
the previous-snapshot set and one entry was logged); in step 2 the
target list is empty, so the zone's occupancy boolean is now false — a
true-to-false flip — yet the run is a no-op and no `unoccupied` entry
is ever appended, refuting "no entry dropped ... when a zone's last
target leaves, exactly one `unoccupied` entry is appended". -/
theorem claim_C1_counterexample :
    zoneOccupied [] unitSquareZone = false
    ∧ unitSquareZone.id ∈ cxState1.prevActive
    ∧ cxState2 = cxState1
    ∧ (logsGet cxState2.zoneLogs unitSquareZone.id).countP
        (fun e => decide (e.type = LogType.unoccupied)) = 0
    ∧ (logsGet cxState1.zoneLogs unitSquareZone.id).length = 1 := by
  with_unfolding_all decide

/-! ## Claim C3 -/

/-- C3 (amended): after an engine run with both lists non-empty, the
previous-snapshot ref equals exactly the set of ids of zones containing
at least one current target (`activeIds`), and the exposed active-zone
state is replaced by that exact set precisely when some zone flipped —
otherwise it is left untouched.  (The unamended claim fails on runs
with an empty list, which leave stale ids behind — see the
counterexample.) -/
theorem claim_C3_active_set_consistency (zones : List Zone) (targets : List Target)
    (ts : ℕ) (s : OccState) (hzones : zones ≠ []) (htargets : targets ≠ []) :
    (occupancyUpdate zones targets ts s).prevActive = activeIds zones targets
    ∧ (occupancyUpdate zones targets ts s).activeZones
        = (if zones.any (zoneFlips targets s.prevActive) then activeIds zones targets
           else s.activeZones) := by
  have hg : ¬(zones.length = 0 ∨ targets.length = 0) := by
    rintro (hl | hl)
    · exact hzones (List.length_eq_zero.mp hl)
    · exact htargets (List.length_eq_zero.mp hl)
  exact ⟨occupancyUpdate_prevActive zones targets ts s hg,
    occupancyUpdate_activeZones zones targets ts s hg⟩

/-- C3 witness at a concrete run: one zone, one target inside it. -/
theorem claim_C3_witness :
    (([unitSquareZone] : List Zone) ≠ [] ∧ ([cxTargetIn] : List Target) ≠ [])
    ∧ ((occupancyUpdate [unitSquareZone] [cxTargetIn] 1 cxState0).prevActive
         = activeIds [unitSquareZone] [cxTargetIn]
       ∧ (occupancyUpdate [unitSquareZone] [cxTargetIn] 1 cxState0).activeZones
         = (if [unitSquareZone].any (zoneFlips [cxTargetIn] cxState0.prevActive) then
              activeIds [unitSquareZone] [cxTargetIn]
            else cxState0.activeZones)) :=
  ⟨⟨by decide, by decide⟩,
    claim_C3_active_set_consistency [unitSquareZone] [cxTargetIn] 1 cxState0
      (by decide) (by decide)⟩

/-- C3 counterexample: after the target list empties, the exposed
active-zone state still holds the square's id although no current
target lies inside any zone, refuting full consistency after every
update. -/
theorem claim_C3_counterexample :
    cxState2.activeZones = {unitSquareZone.id}
    ∧ activeIds [unitSquareZone] [] = ∅
    ∧ cxState2.activeZones ≠ activeIds [unitSquareZone] [] := by
  with_unfolding_all decide

/-! ## Session state and message dispatcher (MainScreen.js)

The React state touched by the WebSocket message handler becomes
`AppState`; the `ws.onmessage` switch becomes `handleServerMessage`.
Payload fields are `Option`s because the handler guards each one with a
JS truthiness test (`if (data.zones)`, `if (data.success && data.zoneId)`). -/

/-- A fall-event log record (only the fields the client carries). -/
structure FallLog where
  timestamp : ℕ
  event_type : String
  target_id : String
deriving DecidableEq, Repr

/-- JS truthiness of an optional string field: absent and empty strings
are falsy. -/
def jsTruthyStr (s : Option String) : Bool :=
  match s with
  | none => false
  | some v => !(v == "")

/-- The client-side session state mutated by the dispatcher and the
zone-deletion protocol. -/
structure AppState where
  zones : List Zone
  targets : List Target
  activeZones : Finset String
  deletingZones : Finset String
  zoneLogs : List (String × List LogEntry)
  receivedZoneLogs : Bool
  fallLogs : List FallLog
  showFallAlert : Bool
  newFallDetected : Bool
  selectedZone : Option Zone
  showLogs : Bool
deriving DecidableEq

/-- Inbound protocol frames, discriminated on the `type` field.  Zone
payloads arrive as an id-keyed map, of which the handler takes
`Object.values`. -/
inductive ServerMessage where
  | zonesResponse (zones : Option (List (String × Zone)))
  | zoneDeleted (success : Bool) (zoneId : Option String)
  | zonesData (zones : Option (List (String × Zone)))
  | zoneLogsResponse (logs : Option (List (String × List LogEntry)))
  | fallLogsResponse (logs : Option (List FallLog))
  | targetUpdate (targets : Option (List Target))
  | fallEvent
  | zoneEvent
  | pong
  | errorMsg
  | unknownMsg

/-- `handleZoneDeleteConfirmation` (MainScreen.js lines 345-379):
remove the zone from the zones list, the active set, the deleting set
and the log map, and clear it from the selection if it was open. -/
def handleZoneDeleteConfirmation (zoneId : String) (s : AppState) : AppState :=
  { s with
    zones := s.zones.filter fun z => decide (z.id ≠ zoneId),
    activeZones := s.activeZones.erase zoneId,
    deletingZones := s.deletingZones.erase zoneId,
    zoneLogs := s.zoneLogs.filter fun kv => decide (kv.1 ≠ zoneId),
    selectedZone := match s.selectedZone with
      | some z => if z.id = zoneId then none else some z
      | none => none,
    showLogs := match s.selectedZone with
      | some z => if z.id = zoneId then false else s.showLogs
      | none => s.showLogs }

/-- The confirmed branch of `handleZoneDelete` (MainScreen.js lines
328-338): mark the zone as deleting and send the request — no
collection is touched. -/
def handleZoneDeleteRequest (zoneId : String) (s : AppState) : AppState :=
  { s with deletingZones := insert zoneId s.deletingZones }

/-- The `ws.onmessage` dispatch switch (MainScreen.js lines 562-640). -/
def handleServerMessage (msg : ServerMessage) (s : AppState) : AppState :=
  match msg with
  | .zonesResponse zones =>
      match zones with
      | some m => { s with zones := m.map Prod.snd }
      | none => s
  | .zoneDeleted success zoneId =>
      if success && jsTruthyStr zoneId then
        handleZoneDeleteConfirmation (zoneId.getD "") s
      else s
  | .zonesData zones =>
      match zones with
      | some m => { s with zones := m.map Prod.snd }
      | none => s
  | .zoneLogsResponse logs =>
      match logs with
      | some l => { s with zoneLogs := l, receivedZoneLogs := true }
      | none => s
  | .fallLogsResponse logs =>
      match logs with
      | some l => { s with fallLogs := l }
      | none => s
  | .targetUpdate targets =>
      match targets with
      | some l => { s with targets := l }
      | none => s
  | .fallEvent => { s with showFallAlert := true, newFallDetected := true }
  | .zoneEvent => s
  | .pong => s
  | .errorMsg => s
  | .unknownMsg => s

/-! ## Connection manager (MainScreen.js lines 457-712) -/

/-- `maxReconnectAttempts` constant. -/
def maxReconnectAttempts : ℕ := 5

/-- `maxReconnectDelay` constant, milliseconds. -/
def maxReconnectDelay : ℚ := 30000

/-- The connection status values the manager moves through. -/
inductive ConnStatus where
  | notConnected
  | connecting
  | connected
  | reconnecting
  | disconnected
  | maxAttemptsReached
deriving DecidableEq, Repr

/-- The connection manager's state: the failure counter, the
`lastConnectionAttemptRef` marker, the `isConnectingRef` guard, the
armed retry-timer delay, the force-reconnect scheduled delay and the
status. -/
structure ConnState where
  connectionAttempts : ℕ
  lastConnectionAttempt : ℤ
  isConnecting : Bool
  retryDelay : Option ℚ
  scheduledReconnectDelay : Option ℚ
  status : ConnStatus
deriving DecidableEq, Repr

/-- `Math.min(5000 * Math.pow(1.5, connectionAttempts), maxReconnectDelay)`. -/
def reconnectRetryDelay (failureCount : ℕ) : ℚ :=
  min (5000 * (3 / 2 : ℚ) ^ failureCount) maxReconnectDelay

/-- `ws.onclose` (MainScreen.js lines 515-554): normal closes (1000,
1001) and an exhausted counter stop retrying; otherwise the counter
increments and a retry timer is armed with the backoff delay computed
from the pre-increment counter. -/
def wsOnClose (code : ℕ) (s : ConnState) : ConnState :=
  let s1 := { s with isConnecting := false }
  if code = 1000 ∨ code = 1001 ∨ s1.connectionAttempts ≥ maxReconnectAttempts then
    { s1 with status := .disconnected }
  else
    { s1 with
      connectionAttempts := s1.connectionAttempts + 1,
      status := .reconnecting,
      retryDelay := some (reconnectRetryDelay s1.connectionAttempts) }

/-- `ws.onopen`: connected, failure counter reset to zero. -/
def wsOnOpen (s : ConnState) : ConnState :=
  { s with status := .connected, connectionAttempts := 0, isConnecting := false }

/-- The periodic failure-counter reset (MainScreen.js lines 703-712):
zero the counter while connected. -/
def attemptsResetTick (s : ConnState) : ConnState :=
  if s.status = ConnStatus.connected then { s with connectionAttempts := 0 } else s

/-- `connectWebSocket` (MainScreen.js lines 457-503): gated by the
minimum 5-second interval, the `isConnecting` guard and the maximum
attempt count; on passing, records the attempt time, clears the retry
timer and starts connecting. -/
def connectWebSocket (now : ℤ) (s : ConnState) : ConnState :=
  if now - s.lastConnectionAttempt < 5000 then s
  else if s.isConnecting then s
  else if s.connectionAttempts ≥ maxReconnectAttempts then
    { s with status := .maxAttemptsReached }
  else
    { s with
      isConnecting := true,
      lastConnectionAttempt := now,
      status := .connecting,
      retryDelay := none }

/-- `forceReconnect` (MainScreen.js lines 670-700): clear the retry
timer, rewind the last-attempt marker by 25 s, clamp the failure
counter to at most 3, and schedule a reconnection attempt in 1 s. -/
def forceReconnect (now : ℤ) (s : ConnState) : ConnState :=
  { s with
    retryDelay := none,
    lastConnectionAttempt := now - 25000,
    connectionAttempts := if s.connectionAttempts > 3 then 3 else s.connectionAttempts,
    scheduledReconnectDelay := some 1000 }

/-! ## Pending-response timer (MainScreen.js lines 394-424, 137-150,
562-640)

The single `messageResponseTimeoutRef` slot and the two last-seen
markers.  `wsOnMessageBookkeeping` is the bookkeeping of the handler
actually installed as `ws.onmessage` (lines 562-567), which updates the
markers but does not clear the slot; `handleWebSocketMessageBookkeeping`
is the bookkeeping of the separately defined (never installed)
`handleWebSocketMessage` callback (lines 137-150), which also clears
it. -/

structure MsgTimerState where
  messageResponseTimeout : Option ℤ
  lastMessageReceivedTime : ℤ
  lastMessageSentTime : ℤ
deriving DecidableEq, Repr

/-- `sendWebSocketMessage` (lines 394-424): on an open socket, send,
record the send time, and re-arm the single 15 s response timer
(clearing any previous one); otherwise report failure. -/
def sendWebSocketMessage (now : ℤ) (socketOpen : Bool) (s : MsgTimerState) :
    MsgTimerState × Bool :=
  if socketOpen then
    ({ s with
        lastMessageSentTime := now,
        messageResponseTimeout := some (now + 15000) }, true)
  else (s, false)

/-- Bookkeeping of the installed `ws.onmessage` handler: refresh the
last-received markers only. -/
def wsOnMessageBookkeeping (now : ℤ) (s : MsgTimerState) : MsgTimerState :=
  { s with lastMessageReceivedTime := now }

/-- Bookkeeping of the (uninstalled) `handleWebSocketMessage` callback:
refresh the markers and clear the pending timer. -/
def handleWebSocketMessageBookkeeping (now : ℤ) (s : MsgTimerState) : MsgTimerState :=
  { s with lastMessageReceivedTime := now, messageResponseTimeout := none }

/-- The body of the 15 s timer: force a reconnect exactly when no
message has been received in the last 15 s. -/
def responseTimeoutEscalates (now : ℤ) (s : MsgTimerState) : Bool :=
  decide (now - s.lastMessageReceivedTime > 15000)

/-! ## Local zone creation (RadarVisualization.js lines 75-107,
MainScreen.js lines 427-454) -/

/-- JS `String.prototype.trim` on the character sequence. -/
def jsTrim (s : String) : String :=
  ⟨((s.data.dropWhile Char.isWhitespace).reverse.dropWhile Char.isWhitespace).reverse⟩

/-- JS `String.prototype.toLowerCase` on the character sequence. -/
def jsToLower (s : String) : String :=
  ⟨s.data.map Char.toLower⟩

/-- The locally generated zone identifier: `` `zone_${Date.now()}` ``. -/
def mkLocalZoneId (nowMs : ℕ) : String :=
  "zone_" ++ toString nowMs

/-- `handleNameSubmit` (RadarVisualization.js lines 75-107): reject an
empty trimmed name or a case-insensitive duplicate name, else build the
zone record with the millisecond-derived id. -/
def handleNameSubmit (nowMs : ℕ) (name : String) (zones : List Zone)
    (zonePoints : List Point) : Option Zone :=
  if jsTrim name = "" then none
  else if zones.any fun z => decide (jsToLower z.name = jsToLower name) then none
  else some { id := mkLocalZoneId nowMs, name := jsTrim name, points := zonePoints }

/-- The `setZones` updater of `handleNewZone` (MainScreen.js lines
427-454): skip creation when a zone with the same id already exists,
else append. -/
def handleNewZone (zones : List Zone) (zoneData : Zone) : List Zone :=
  if zones.any fun z => decide (z.id = zoneData.id) then zones
  else zones ++ [zoneData]

/-! ## Claim C4 -/

/-- C4 (amended): every resync response replaces — never appends to —
its collection, and replaying the same response is idempotent, so a
repeated resync cannot duplicate zones or log entries; however the
`zone_logs_response` case also replaces the zone-log map itself (and
sets the received flag), so the client-derived occupancy log is NOT
left unchanged by resync. -/
theorem claim_C4_resync_replaces (s : AppState)
    (zm : List (String × Zone)) (lm : List (String × List LogEntry))
    (fl : List FallLog) (tl : List Target) :
    (handleServerMessage (.zonesResponse (some zm)) s).zones = zm.map Prod.snd
    ∧ handleServerMessage (.zonesResponse (some zm))
        (handleServerMessage (.zonesResponse (some zm)) s)
      = handleServerMessage (.zonesResponse (some zm)) s
    ∧ (handleServerMessage (.zonesData (some zm)) s).zones = zm.map Prod.snd
    ∧ (handleServerMessage (.zoneLogsResponse (some lm)) s).zoneLogs = lm
    ∧ (handleServerMessage (.zoneLogsResponse (some lm)) s).receivedZoneLogs = true
    ∧ handleServerMessage (.zoneLogsResponse (some lm))
        (handleServerMessage (.zoneLogsResponse (some lm)) s)
      = handleServerMessage (.zoneLogsResponse (some lm)) s
    ∧ (handleServerMessage (.fallLogsResponse (some fl)) s).fallLogs = fl
    ∧ handleServerMessage (.fallLogsResponse (some fl))
        (handleServerMessage (.fallLogsResponse (some fl)) s)
      = handleServerMessage (.fallLogsResponse (some fl)) s
    ∧ (handleServerMessage (.targetUpdate (some tl)) s).targets = tl
    ∧ handleServerMessage (.targetUpdate (some tl))
        (handleServerMessage (.targetUpdate (some tl)) s)
      = handleServerMessage (.targetUpdate (some tl)) s :=
  ⟨rfl, rfl, rfl, rfl, rfl, rfl, rfl, rfl, rfl, rfl⟩

/-- A session state holding one client-derived occupancy log entry. -/
def cxApp0 : AppState :=
  { zones := [], targets := [], activeZones := ∅, deletingZones := ∅,
    zoneLogs := [("z1", [mkLogEntry 1 true []])], receivedZoneLogs := false,
    fallLogs := [], showFallAlert := false, newFallDetected := false,
    selectedZone := none, showLogs := false }

/-- C4 counterexample: a `zone_logs_response` carrying an empty log map
erases the entry the client itself derived, so resync does alter the
client-derived occupancy log. -/
theorem claim_C4_counterexample :
    (handleServerMessage (.zoneLogsResponse (some [])) cxApp0).zoneLogs = []
    ∧ cxApp0.zoneLogs ≠ []
    ∧ (handleServerMessage (.zoneLogsResponse (some [])) cxApp0).zoneLogs
        ≠ cxApp0.zoneLogs := by
  refine ⟨rfl, ?_, ?_⟩ <;> decide

/-! ## Claim C6 -/

/-- C6: sending a delete request (even twice) adds the zone only to the
deleting set and removes it from nothing; a `zone_deleted` frame
without `success` and a non-empty `zoneId` is a no-op; the confirmed
frame dispatches to the finalizer, which removes the zone id from the
zones list, the active set, the deleting set and the log map, and
clears a matching selection. -/
theorem claim_C6_two_phase_delete (s : AppState) (zoneId : String)
    (success : Bool) (zid : Option String)
    (hreq : (success && jsTruthyStr zid) = false) (hne : zoneId ≠ "") :
    ((handleZoneDeleteRequest zoneId (handleZoneDeleteRequest zoneId s)).zones = s.zones
     ∧ (handleZoneDeleteRequest zoneId (handleZoneDeleteRequest zoneId s)).activeZones
         = s.activeZones
     ∧ (handleZoneDeleteRequest zoneId (handleZoneDeleteRequest zoneId s)).zoneLogs
         = s.zoneLogs
     ∧ (handleZoneDeleteRequest zoneId (handleZoneDeleteRequest zoneId s)).selectedZone
         = s.selectedZone
     ∧ zoneId ∈ (handleZoneDeleteRequest zoneId s).deletingZones)
    ∧ handleServerMessage (.zoneDeleted success zid) s = s
    ∧ handleServerMessage (.zoneDeleted true (some zoneId)) s
        = handleZoneDeleteConfirmation zoneId s
    ∧ ((handleZoneDeleteConfirmation zoneId s).zones.all fun z =>
         decide (z.id ≠ zoneId)) = true
    ∧ zoneId ∉ (handleZoneDeleteConfirmation zoneId s).activeZones
    ∧ zoneId ∉ (handleZoneDeleteConfirmation zoneId s).deletingZones
    ∧ ((handleZoneDeleteConfirmation zoneId s).zoneLogs.all fun kv =>
         decide (kv.1 ≠ zoneId)) = true
    ∧ ((handleZoneDeleteConfirmation zoneId s).selectedZone.all fun z =>
         decide (z.id ≠ zoneId)) = true := by
  refine ⟨⟨rfl, rfl, rfl, rfl, Finset.mem_insert_self zoneId s.deletingZones⟩,
    ?_, ?_, ?_, ?_, ?_, ?_, ?_⟩
  · simp only [handleServerMessage, hreq, Bool.false_eq_true, if_false]
  · have ht : jsTruthyStr (some zoneId) = true := by
      simp [jsTruthyStr, hne]
    simp only [handleServerMessage, ht, Bool.and_true, if_true, Option.getD_some]
  · rw [List.all_eq_true]
    intro z hz
    exact (List.mem_filter.mp hz).2
  · exact Finset.not_mem_erase zoneId s.activeZones
  · exact Finset.not_mem_erase zoneId s.deletingZones
  · rw [List.all_eq_true]
    intro kv hkv
    exact (List.mem_filter.mp hkv).2
  · rcases hsel : s.selectedZone with _ | z
    · simp [handleZoneDeleteConfirmation, hsel]
    · by_cases hzid : z.id = zoneId
      · simp [handleZoneDeleteConfirmation, hsel, hzid]
      · simp [handleZoneDeleteConfirmation, hsel, hzid]

/-- A session holding the unit-square zone, selected and active. -/
def cxApp1 : AppState :=
  { zones := [unitSquareZone], targets := [], activeZones := {"zone_sq"},
    deletingZones := ∅, zoneLogs := [("zone_sq", [mkLogEntry 1 true []])],
    receivedZoneLogs := true, fallLogs := [], showFallAlert := false,
    newFallDetected := false, selectedZone := some unitSquareZone,
    showLogs := true }

/-- C6 witness at a concrete session: a failed confirmation frame is a
no-op and the confirmed frame removes the square everywhere. -/
theorem claim_C6_witness :
    ((false && jsTruthyStr none) = false ∧ "zone_sq" ≠ "")
    ∧ (((handleZoneDeleteRequest "zone_sq" (handleZoneDeleteRequest "zone_sq" cxApp1)).zones
          = cxApp1.zones
        ∧ (handleZoneDeleteRequest "zone_sq" (handleZoneDeleteRequest "zone_sq" cxApp1)).activeZones
          = cxApp1.activeZones
        ∧ (handleZoneDeleteRequest "zone_sq" (handleZoneDeleteRequest "zone_sq" cxApp1)).zoneLogs
          = cxApp1.zoneLogs
        ∧ (handleZoneDeleteRequest "zone_sq" (handleZoneDeleteRequest "zone_sq" cxApp1)).selectedZone
          = cxApp1.selectedZone
        ∧ "zone_sq" ∈ (handleZoneDeleteRequest "zone_sq" cxApp1).deletingZones)
       ∧ handleServerMessage (.zoneDeleted false none) cxApp1 = cxApp1
       ∧ handleServerMessage (.zoneDeleted true (some "zone_sq")) cxApp1
           = handleZoneDeleteConfirmation "zone_sq" cxApp1
       ∧ ((handleZoneDeleteConfirmation "zone_sq" cxApp1).zones.all fun z =>
            decide (z.id ≠ "zone_sq")) = true
       ∧ "zone_sq" ∉ (handleZoneDeleteConfirmation "zone_sq" cxApp1).activeZones
       ∧ "zone_sq" ∉ (handleZoneDeleteConfirmation "zone_sq" cxApp1).deletingZones
       ∧ ((handleZoneDeleteConfirmation "zone_sq" cxApp1).zoneLogs.all fun kv =>
            decide (kv.1 ≠ "zone_sq")) = true
       ∧ ((handleZoneDeleteConfirmation "zone_sq" cxApp1).selectedZone.all fun z =>
            decide (z.id ≠ "zone_sq")) = true) :=
  ⟨⟨by decide, by decide⟩,
    claim_C6_two_phase_delete cxApp1 "zone_sq" false none (by decide) (by decide)⟩

/-! ## Claim C5 -/

/-- C5: every abnormal close below the attempt cap arms a retry timer
with delay `min(5000 * 1.5^n, 30000)` computed from the pre-increment
failure counter `n`, which then increments; the armed delay is
non-decreasing in the counter and never exceeds 30000 ms, and a
(re-)established connection resets the counter, bringing the delay back
to the 5000 ms base. -/
theorem claim_C5_backoff_delay (s : ConnState) (code : ℕ) (n : ℕ)
    (hn : s.connectionAttempts = n) (hlt : n < 5)
    (hc1 : code ≠ 1000) (hc2 : code ≠ 1001) :
    (wsOnClose code s).retryDelay = some (min (5000 * (3 / 2 : ℚ) ^ n) 30000)
    ∧ (wsOnClose code s).connectionAttempts = n + 1
    ∧ reconnectRetryDelay n ≤ reconnectRetryDelay (n + 1)
    ∧ reconnectRetryDelay n ≤ 30000
    ∧ (wsOnOpen s).connectionAttempts = 0
    ∧ (s.status = ConnStatus.connected → (attemptsResetTick s).connectionAttempts = 0)
    ∧ reconnectRetryDelay 0 = 5000 := by
  have hguard : ¬(code = 1000 ∨ code = 1001 ∨ s.connectionAttempts ≥ maxReconnectAttempts) := by
    rw [maxReconnectAttempts, hn]
    rintro (h | h | h)
    · exact hc1 h
    · exact hc2 h
    · omega
  refine ⟨?_, ?_, ?_, ?_, rfl, ?_, ?_⟩
  · rw [wsOnClose]
    simp only [hguard, if_false]
    rw [hn, reconnectRetryDelay, maxReconnectDelay]
  · rw [wsOnClose]
    simp only [hguard, if_false]
    rw [hn]
  · rw [reconnectRetryDelay, reconnectRetryDelay]
    refine min_le_min ?_ le_rfl
    have h32 : (1 : ℚ) ≤ 3 / 2 := by norm_num
    have hpow := pow_le_pow_right₀ h32 (Nat.le_succ n)
    exact mul_le_mul_of_nonneg_left hpow (by norm_num)
  · exact min_le_right _ _
  · intro hconn
    rw [attemptsResetTick, if_pos hconn]
  · rw [reconnectRetryDelay, maxReconnectDelay]
    norm_num

/-- C5 witness: the third abnormal close (counter 2) arms
`min(5000 * 1.5^2, 30000) = 11250` ms. -/
theorem claim_C5_witness :
    ((⟨2, 0, false, none, none, ConnStatus.connected⟩ : ConnState).connectionAttempts = 2
     ∧ (2 : ℕ) < 5 ∧ (1006 : ℕ) ≠ 1000 ∧ (1006 : ℕ) ≠ 1001)
    ∧ ((wsOnClose 1006 ⟨2, 0, false, none, none, ConnStatus.connected⟩).retryDelay
         = some (min (5000 * (3 / 2 : ℚ) ^ 2) 30000)
       ∧ (wsOnClose 1006 ⟨2, 0, false, none, none, ConnStatus.connected⟩).connectionAttempts = 3
       ∧ reconnectRetryDelay 2 ≤ reconnectRetryDelay 3
       ∧ reconnectRetryDelay 2 ≤ 30000
       ∧ (wsOnOpen ⟨2, 0, false, none, none, ConnStatus.connected⟩).connectionAttempts = 0
       ∧ ((⟨2, 0, false, none, none, ConnStatus.connected⟩ : ConnState).status
            = ConnStatus.connected →
          (attemptsResetTick ⟨2, 0, false, none, none, ConnStatus.connected⟩).connectionAttempts
            = 0)
       ∧ reconnectRetryDelay 0 = 5000) :=
  ⟨⟨rfl, by decide, by decide, by decide⟩,
    claim_C5_backoff_delay ⟨2, 0, false, none, none, ConnStatus.connected⟩ 1006 2
      rfl (by decide) (by decide) (by decide)⟩

/-! ## Claim C7 -/

/-- C7: from any state (the connecting guard being clear, as the forced
close resets it), a forced reconnect clamps the failure counter to at
most 3, cancels the armed retry timer, schedules a fixed 1 s
reconnection, rewinds the last-attempt marker so the 5-second
minimum-interval gate cannot block the scheduled attempt, and that
attempt indeed enters the connecting state (in particular the clamped
counter is below the maximum-attempts cutoff). -/
theorem claim_C7_force_reconnect (now : ℤ) (s : ConnState)
    (hic : s.isConnecting = false) :
    (forceReconnect now s).connectionAttempts ≤ 3
    ∧ (forceReconnect now s).retryDelay = none
    ∧ (forceReconnect now s).scheduledReconnectDelay = some 1000
    ∧ ¬((now + 1000) - (forceReconnect now s).lastConnectionAttempt < 5000)
    ∧ (connectWebSocket (now + 1000) (forceReconnect now s)).status
        = ConnStatus.connecting := by
  have hclamp : (forceReconnect now s).connectionAttempts ≤ 3 := by
    show (if s.connectionAttempts > 3 then 3 else s.connectionAttempts) ≤ 3
    split <;> omega
  have hgate : ¬((now + 1000) - (forceReconnect now s).lastConnectionAttempt < 5000) := by
    show ¬((now + 1000) - (now - 25000) < 5000)
    omega
  refine ⟨hclamp, rfl, rfl, hgate, ?_⟩
  rw [connectWebSocket, if_neg hgate]
  have hic' : (forceReconnect now s).isConnecting = false := hic
  rw [hic']
  simp only [Bool.false_eq_true, if_false]
  have hmax : ¬((forceReconnect now s).connectionAttempts ≥ maxReconnectAttempts) := by
    rw [maxReconnectAttempts]
    intro hge
    exact absurd hclamp (by omega)
  rw [if_neg hmax]

/-- C7 witness: after five failures have exhausted automatic retries, a
forced reconnect clamps the counter to 3 and the scheduled attempt
starts connecting. -/
theorem claim_C7_witness :
    ((⟨5, 999000, false, some 30000, none, ConnStatus.maxAttemptsReached⟩ : ConnState).isConnecting
        = false)
    ∧ ((forceReconnect 1000000 ⟨5, 999000, false, some 30000, none,
          ConnStatus.maxAttemptsReached⟩).connectionAttempts ≤ 3
       ∧ (forceReconnect 1000000 ⟨5, 999000, false, some 30000, none,
            ConnStatus.maxAttemptsReached⟩).retryDelay = none
       ∧ (forceReconnect 1000000 ⟨5, 999000, false, some 30000, none,
            ConnStatus.maxAttemptsReached⟩).scheduledReconnectDelay = some 1000
       ∧ ¬((1000000 + 1000 : ℤ)
            - (forceReconnect 1000000 ⟨5, 999000, false, some 30000, none,
                ConnStatus.maxAttemptsReached⟩).lastConnectionAttempt < 5000)
       ∧ (connectWebSocket (1000000 + 1000) (forceReconnect 1000000
            ⟨5, 999000, false, some 30000, none,
              ConnStatus.maxAttemptsReached⟩)).status = ConnStatus.connecting) :=
  ⟨rfl, claim_C7_force_reconnect 1000000
    ⟨5, 999000, false, some 30000, none, ConnStatus.maxAttemptsReached⟩ rfl⟩

/-! ## Claim C8 -/

/-- C8 (amended): at most one pending-response slot exists (re-armed,
not stacked, by every successful send, with a 15 s deadline); a failed
send changes nothing; the installed message handler refreshes the
last-received marker but does NOT clear the armed timer (only the
uninstalled `handleWebSocketMessage` callback clears it); when the
timer fires, it forces a reconnect exactly when no message arrived in
the last 15 s — so an inbound message still prevents escalation, via
the marker rather than by clearing the timer. -/
theorem claim_C8_response_timer (now : ℤ) (s : MsgTimerState) :
    (sendWebSocketMessage now true s).1.messageResponseTimeout = some (now + 15000)
    ∧ (sendWebSocketMessage now true s).2 = true
    ∧ sendWebSocketMessage now false s = (s, false)
    ∧ (wsOnMessageBookkeeping now s).lastMessageReceivedTime = now
    ∧ (wsOnMessageBookkeeping now s).messageResponseTimeout = s.messageResponseTimeout
    ∧ (handleWebSocketMessageBookkeeping now s).messageResponseTimeout = none
    ∧ (responseTimeoutEscalates now s = true ↔ now - s.lastMessageReceivedTime > 15000) := by
  refine ⟨rfl, rfl, rfl, rfl, rfl, rfl, ?_⟩
  rw [responseTimeoutEscalates]
  exact decide_eq_true_iff

/-- C8 counterexample: a message received at time 10 by the installed
handler leaves the timer armed, refuting "every inbound message that
arrives before the timer fires clears it". -/
theorem claim_C8_counterexample :
    (wsOnMessageBookkeeping 10 ⟨some 5, 0, 0⟩).messageResponseTimeout = some 5
    ∧ (wsOnMessageBookkeeping 10 ⟨some 5, 0, 0⟩).messageResponseTimeout ≠ none := by
  refine ⟨rfl, ?_⟩
  decide

/-! ## Claim C10 -/

theorem handleNewZone_skip (zones : List Zone) (z : Zone)
    (h : (zones.any fun w => decide (w.id = z.id)) = true) :
    handleNewZone zones z = zones := by
  rw [handleNewZone, if_pos h]

theorem handleNewZone_has_id (zones : List Zone) (z : Zone) (x : String)
    (hx : x = z.id) :
    ((handleNewZone zones z).any fun w => decide (w.id = x)) = true := by
  subst hx
  rw [handleNewZone]
  by_cases hz : (zones.any fun w => decide (w.id = z.id)) = true
  · rw [if_pos hz]
    exact hz
  · rw [if_neg hz, List.any_append]
    simp

/-- C10: two successful zone creations in the same millisecond receive
identical ids (`zone_` + epoch milliseconds), so adding the second
after the first is skipped by the duplicate-id check and leaves the
zones list unchanged — the second polygon is silently lost. -/
theorem claim_C10_same_millisecond_ids (nowMs : ℕ)
    (name1 name2 : String) (zs1 zs2 zones : List Zone)
    (pts1 pts2 : List Point) (z1 z2 : Zone)
    (h1 : handleNameSubmit nowMs name1 zs1 pts1 = some z1)
    (h2 : handleNameSubmit nowMs name2 zs2 pts2 = some z2) :
    z1.id = z2.id
    ∧ handleNewZone (handleNewZone zones z1) z2 = handleNewZone zones z1 := by
  have hid1 : z1.id = mkLocalZoneId nowMs := by
    rw [handleNameSubmit] at h1
    split at h1
    · cases h1
    · split at h1
      · cases h1
      · cases h1
        rfl
  have hid2 : z2.id = mkLocalZoneId nowMs := by
    rw [handleNameSubmit] at h2
    split at h2
    · cases h2
    · split at h2
      · cases h2
      · cases h2
        rfl
  have hid : z1.id = z2.id := hid1.trans hid2.symm
  refine ⟨hid, ?_⟩
  exact handleNewZone_skip (handleNewZone zones z1) z2
    (handleNewZone_has_id zones z1 z2.id hid.symm)

/-- C10 witness: two distinct names submitted in the same millisecond
yield the same id, and the second zone never reaches the list. -/
theorem claim_C10_witness :
    (handleNameSubmit 1700000000000 "Kitchen" [] [⟨0, 0⟩, ⟨1, 0⟩, ⟨0, 1⟩]
        = some ⟨"zone_1700000000000", "Kitchen", [⟨0, 0⟩, ⟨1, 0⟩, ⟨0, 1⟩]⟩
     ∧ handleNameSubmit 1700000000000 "Door" [] [⟨0, 0⟩, ⟨2, 0⟩, ⟨0, 2⟩]
        = some ⟨"zone_1700000000000", "Door", [⟨0, 0⟩, ⟨2, 0⟩, ⟨0, 2⟩]⟩)
    ∧ ((⟨"zone_1700000000000", "Kitchen", [⟨0, 0⟩, ⟨1, 0⟩, ⟨0, 1⟩]⟩ : Zone).id
         = (⟨"zone_1700000000000", "Door", [⟨0, 0⟩, ⟨2, 0⟩, ⟨0, 2⟩]⟩ : Zone).id
       ∧ handleNewZone
           (handleNewZone [] ⟨"zone_1700000000000", "Kitchen", [⟨0, 0⟩, ⟨1, 0⟩, ⟨0, 1⟩]⟩)
           ⟨"zone_1700000000000", "Door", [⟨0, 0⟩, ⟨2, 0⟩, ⟨0, 2⟩]⟩
         = handleNewZone [] ⟨"zone_1700000000000", "Kitchen", [⟨0, 0⟩, ⟨1, 0⟩, ⟨0, 1⟩]⟩) :=
  ⟨⟨by decide, by decide⟩,
    claim_C10_same_millisecond_ids 1700000000000 "Kitchen" "Door" [] [] []
      [⟨0, 0⟩, ⟨1, 0⟩, ⟨0, 1⟩] [⟨0, 0⟩, ⟨2, 0⟩, ⟨0, 2⟩]
      ⟨"zone_1700000000000", "Kitchen", [⟨0, 0⟩, ⟨1, 0⟩, ⟨0, 1⟩]⟩
      ⟨"zone_1700000000000", "Door", [⟨0, 0⟩, ⟨2, 0⟩, ⟨0, 2⟩]⟩
      (by decide) (by decide)⟩

end Radar
